import Mathlib

/-!
Verification development for the Zero-Gravity repository: an Express IPFS
proxy (`server.js`) and a React viewer (`App.tsx`) whose core is the
challenge-sign → key-derive → fetch → decrypt pipeline.

Byte sequences are modelled as `List Nat` with every byte `< 256`; JS strings
are Lean `String`s; fallible operations return `Except String` mirroring the
thrown `Error` messages; browser / Web Crypto primitives that are external to
the repository (`atob`, `crypto.subtle`, `fetch`, the wallet signer) are
modelled concretely where their behaviour is standardised (base64, SHA-256)
and as explicit function parameters where it is environment-dependent
(AES-GCM keystream internals, HTTP responses, the signer).
-/

namespace ZeroGravity

/-! ### Base64 (model of `window.atob` / the payload encoding) -/

def base64Alphabet : List Char :=
  ['A','B','C','D','E','F','G','H','I','J','K','L','M','N','O','P','Q','R','S',
   'T','U','V','W','X','Y','Z','a','b','c','d','e','f','g','h','i','j','k','l',
   'm','n','o','p','q','r','s','t','u','v','w','x','y','z','0','1','2','3','4',
   '5','6','7','8','9','+','/']

def sextetToChar (n : Nat) : Char := base64Alphabet.getD n '='

def alphaIndex : List Char → Nat → Char → Option Nat
  | [], _, _ => none
  | a :: rest, i, c => if a = c then some i else alphaIndex rest (i + 1) c

def charToSextet (c : Char) : Option Nat := alphaIndex base64Alphabet 0 c

/-- RFC 4648 base64 encoding of a byte list (bytes assumed `< 256`). -/
def base64Encode : List Nat → List Char
  | [] => []
  | [a] => [sextetToChar (a / 4), sextetToChar (a % 4 * 16), '=', '=']
  | [a, b] => [sextetToChar (a / 4), sextetToChar (a % 4 * 16 + b / 16),
               sextetToChar (b % 16 * 4), '=']
  | a :: b :: c :: rest =>
      sextetToChar (a / 4) :: sextetToChar (a % 4 * 16 + b / 16) ::
      sextetToChar (b % 16 * 4 + c / 64) :: sextetToChar (c % 64) ::
      base64Encode rest

/-- Base64 decoding; `none` models `atob` throwing on malformed input. -/
def base64Decode : List Char → Option (List Nat)
  | [] => some []
  | c1 :: c2 :: c3 :: c4 :: rest =>
    match charToSextet c1, charToSextet c2 with
    | some s1, some s2 =>
      if c3 = '=' then
        if c4 = '=' ∧ rest = [] then some [s1 * 4 + s2 / 16] else none
      else
        match charToSextet c3 with
        | some s3 =>
          if c4 = '=' then
            if rest = [] then some [s1 * 4 + s2 / 16, s2 % 16 * 16 + s3 / 4]
            else none
          else
            match charToSextet c4 with
            | some s4 =>
              (base64Decode rest).map
                (fun bs => (s1 * 4 + s2 / 16) :: (s2 % 16 * 16 + s3 / 4) ::
                           (s3 % 4 * 64 + s4) :: bs)
            | none => none
        | none => none
    | _, _ => none
  | _ => none

theorem charToSextet_sextetToChar : ∀ n < 64, charToSextet (sextetToChar n) = some n := by
  decide

theorem sextetToChar_ne_eq : ∀ n < 64, sextetToChar n ≠ '=' := by
  decide

theorem mul_add_div_eq (k u v : Nat) (hk : 0 < k) (hv : v < k) : (u * k + v) / k = u := by
  rw [Nat.mul_comm u k, Nat.mul_add_div hk, Nat.div_eq_of_lt hv, Nat.add_zero]

theorem mul_add_mod_eq (k u v : Nat) (hv : v < k) : (u * k + v) % k = v := by
  rw [Nat.mul_comm u k, Nat.mul_add_mod, Nat.mod_eq_of_lt hv]

/-- Decoding inverts encoding on genuine byte lists. -/
theorem base64Decode_base64Encode :
    ∀ l : List Nat, (∀ b ∈ l, b < 256) → base64Decode (base64Encode l) = some l
  | [], _ => rfl
  | [a], hb => by
    have ha : a < 256 := hb a (by simp)
    have h1 : a / 4 < 64 := by omega
    have h2 : a % 4 * 16 < 64 := by omega
    have e1 : a % 4 * 16 / 16 = a % 4 := Nat.mul_div_cancel _ (by norm_num)
    simp only [base64Encode, base64Decode, charToSextet_sextetToChar _ h1,
      charToSextet_sextetToChar _ h2]
    simp [e1]
    omega
  | [a, b], hb => by
    have ha : a < 256 := hb a (by simp)
    have hbb : b < 256 := hb b (by simp)
    have h1 : a / 4 < 64 := by omega
    have h2 : a % 4 * 16 + b / 16 < 64 := by omega
    have h3 : b % 16 * 4 < 64 := by omega
    have e1 : (a % 4 * 16 + b / 16) / 16 = a % 4 :=
      mul_add_div_eq 16 (a % 4) (b / 16) (by norm_num) (by omega)
    have e2 : (a % 4 * 16 + b / 16) % 16 = b / 16 :=
      mul_add_mod_eq 16 (a % 4) (b / 16) (by omega)
    have e3 : b % 16 * 4 / 4 = b % 16 := Nat.mul_div_cancel _ (by norm_num)
    simp only [base64Encode, base64Decode, charToSextet_sextetToChar _ h1,
      charToSextet_sextetToChar _ h2, charToSextet_sextetToChar _ h3,
      if_neg (sextetToChar_ne_eq _ h3)]
    simp [e1, e2, e3]
    constructor <;> omega
  | a :: b :: c :: rest, hb => by
    have ha : a < 256 := hb a (by simp)
    have hbb : b < 256 := hb b (by simp)
    have hc : c < 256 := hb c (by simp)
    have h1 : a / 4 < 64 := by omega
    have h2 : a % 4 * 16 + b / 16 < 64 := by omega
    have h3 : b % 16 * 4 + c / 64 < 64 := by omega
    have h4 : c % 64 < 64 := by omega
    have e1 : (a % 4 * 16 + b / 16) / 16 = a % 4 :=
      mul_add_div_eq 16 (a % 4) (b / 16) (by norm_num) (by omega)
    have e2 : (a % 4 * 16 + b / 16) % 16 = b / 16 :=
      mul_add_mod_eq 16 (a % 4) (b / 16) (by omega)
    have e3 : (b % 16 * 4 + c / 64) / 4 = b % 16 :=
      mul_add_div_eq 4 (b % 16) (c / 64) (by norm_num) (by omega)
    have e4 : (b % 16 * 4 + c / 64) % 4 = c / 64 :=
      mul_add_mod_eq 4 (b % 16) (c / 64) (by omega)
    have ih := base64Decode_base64Encode rest (by
      intro x hx
      exact hb x (by simp [hx]))
    simp only [base64Encode, base64Decode, charToSextet_sextetToChar _ h1,
      charToSextet_sextetToChar _ h2, charToSextet_sextetToChar _ h3,
      charToSextet_sextetToChar _ h4, if_neg (sextetToChar_ne_eq _ h3),
      if_neg (sextetToChar_ne_eq _ h4), ih]
    simp [e1, e2, e3, e4]
    refine ⟨by omega, by omega, by omega⟩

/-! ### AES-GCM (model of `crypto.subtle.encrypt/decrypt` with `name: "AES-GCM"`)

The Web Crypto AES-GCM primitive is external to the repository.  It is
modelled at the GCM-mode level: encryption XORs the plaintext with a
keystream derived from key and nonce and appends the 16-byte authentication
tag; decryption recomputes the tag over the received ciphertext and, on a
match, XORs the same keystream back.  The keystream (`ks`, AES-CTR in the
real primitive) and the tag function (`mac`, GHASH composed with AES in the
real primitive) are explicit parameters, so every theorem below holds for
the actual AES-based instances. -/

def xorBytes (a b : List Nat) : List Nat :=
  List.zipWith (fun x y => (x % 256) ^^^ (y % 256)) a b

def tagOf (mac : List Nat → List Nat → List Nat → List Nat)
    (key iv ct : List Nat) : List Nat :=
  ((mac key iv ct).map (· % 256) ++ List.replicate 16 0).take 16

def gcmEncrypt (ks : List Nat → List Nat → Nat → List Nat)
    (mac : List Nat → List Nat → List Nat → List Nat)
    (key iv p : List Nat) : List Nat :=
  let ct := xorBytes p (ks key iv p.length)
  ct ++ tagOf mac key iv ct

def gcmDecrypt (ks : List Nat → List Nat → Nat → List Nat)
    (mac : List Nat → List Nat → List Nat → List Nat)
    (key iv c : List Nat) : Except String (List Nat) :=
  if c.length < 16 then .error "OperationError"
  else
    let ct := c.take (c.length - 16)
    let t := c.drop (c.length - 16)
    if t = tagOf mac key iv ct then .ok (xorBytes ct (ks key iv ct.length))
    else .error "OperationError"

theorem length_xorBytes (a b : List Nat) :
    (xorBytes a b).length = min a.length b.length := by
  simp [xorBytes]

theorem mem_xorBytes_lt : ∀ (a b : List Nat), ∀ x ∈ xorBytes a b, x < 256
  | [], _, x, hx => by simp [xorBytes] at hx
  | _ :: _, [], x, hx => by simp [xorBytes] at hx
  | p :: a, q :: b, x, hx => by
    simp only [xorBytes, List.zipWith_cons_cons, List.mem_cons] at hx
    rcases hx with h | h
    · subst h
      exact Nat.xor_lt_two_pow (n := 8) (Nat.mod_lt _ (by norm_num))
        (Nat.mod_lt _ (by norm_num))
    · exact mem_xorBytes_lt a b x h

theorem xorBytes_cancel : ∀ (p s : List Nat), (∀ x ∈ p, x < 256) →
    p.length ≤ s.length → xorBytes (xorBytes p s) s = p
  | [], _, _, _ => by simp [xorBytes]
  | _ :: _, [], _, h => by simp at h
  | x :: p, y :: s, hb, hlen => by
    have hx : x < 256 := hb x (by simp)
    have hxm : x % 256 = x := Nat.mod_eq_of_lt hx
    have hlt : (x % 256) ^^^ (y % 256) < 256 :=
      Nat.xor_lt_two_pow (n := 8) (Nat.mod_lt _ (by norm_num))
        (Nat.mod_lt _ (by norm_num))
    have ih := xorBytes_cancel p s (fun z hz => hb z (by simp [hz]))
      (by simpa using Nat.le_of_succ_le_succ hlen)
    simp only [xorBytes, List.zipWith_cons_cons, List.cons.injEq] at ih ⊢
    refine ⟨?_, ih⟩
    rw [Nat.mod_eq_of_lt hlt, hxm, Nat.xor_cancel_right]

theorem length_tagOf (mac : List Nat → List Nat → List Nat → List Nat)
    (key iv ct : List Nat) : (tagOf mac key iv ct).length = 16 := by
  simp [tagOf]

theorem mem_tagOf_lt (mac : List Nat → List Nat → List Nat → List Nat)
    (key iv ct : List Nat) : ∀ x ∈ tagOf mac key iv ct, x < 256 := by
  intro x hx
  have hx' := List.take_subset _ _ hx
  rcases List.mem_append.1 hx' with h | h
  · rcases List.mem_map.1 h with ⟨y, _, rfl⟩
    exact Nat.mod_lt _ (by norm_num)
  · rw [List.eq_of_mem_replicate h]
    norm_num

theorem length_gcmEncrypt (ks : List Nat → List Nat → Nat → List Nat)
    (mac : List Nat → List Nat → List Nat → List Nat) (key iv p : List Nat)
    (hks : (ks key iv p.length).length = p.length) :
    (gcmEncrypt ks mac key iv p).length = p.length + 16 := by
  simp [gcmEncrypt, length_xorBytes, hks, length_tagOf]

theorem mem_gcmEncrypt_lt (ks : List Nat → List Nat → Nat → List Nat)
    (mac : List Nat → List Nat → List Nat → List Nat) (key iv p : List Nat) :
    ∀ x ∈ gcmEncrypt ks mac key iv p, x < 256 := by
  intro x hx
  rcases List.mem_append.1 hx with h | h
  · exact mem_xorBytes_lt _ _ x h
  · exact mem_tagOf_lt mac key iv _ x h

/-- GCM-mode round trip: decrypting an encryption with the same key and
nonce authenticates and returns the plaintext. -/
theorem gcmDecrypt_gcmEncrypt (ks : List Nat → List Nat → Nat → List Nat)
    (mac : List Nat → List Nat → List Nat → List Nat) (key iv p : List Nat)
    (hks : (ks key iv p.length).length = p.length)
    (hp : ∀ x ∈ p, x < 256) :
    gcmDecrypt ks mac key iv (gcmEncrypt ks mac key iv p) = .ok p := by
  have hctlen : (xorBytes p (ks key iv p.length)).length = p.length := by
    simp [length_xorBytes, hks]
  have hclen : (gcmEncrypt ks mac key iv p).length = p.length + 16 :=
    length_gcmEncrypt ks mac key iv p hks
  rw [gcmDecrypt, if_neg (by omega)]
  have hsub : (gcmEncrypt ks mac key iv p).length - 16 = p.length := by omega
  rw [hsub]
  have htake : (gcmEncrypt ks mac key iv p).take p.length
      = xorBytes p (ks key iv p.length) := by
    rw [gcmEncrypt]
    exact List.take_left' hctlen
  have hdrop : (gcmEncrypt ks mac key iv p).drop p.length
      = tagOf mac key iv (xorBytes p (ks key iv p.length)) := by
    rw [gcmEncrypt]
    exact List.drop_left' hctlen
  rw [htake, hdrop, if_pos rfl, hctlen]
  exact congrArg Except.ok (xorBytes_cancel p _ hp (by omega))

/-! ### `base64ToBytes` and `decryptBase64Payload` (App.tsx lines 156-184) -/

/-- `base64ToBytes`: `window.atob` then char codes; `atob` is modelled by
`base64Decode`, its DOMException on malformed input by the error value. -/
def base64ToBytes (base64 : String) : Except String (List Nat) :=
  match base64Decode base64.data with
  | some bytes => .ok bytes
  | none => .error "InvalidCharacterError"

/-- `decryptBase64Payload`: decode base64, require length > 12, split the
12-byte nonce from the ciphertext and run AES-GCM decryption.  The decryption
primitive `dec` (`crypto.subtle.decrypt`) and the key type are parameters. -/
def decryptBase64Payload {κ : Type}
    (dec : κ → List Nat → List Nat → Except String (List Nat))
    (base64 : String) (key : κ) : Except String (List Nat) :=
  match base64ToBytes base64 with
  | .error e => .error e
  | .ok bytes =>
    if bytes.length ≤ 12 then .error "Payload too short"
    else dec key (bytes.take 12) (bytes.drop 12)

/-! ### Claims C1 and C2 -/

/-- C1: for every plaintext, key and 12-byte nonce, decrypting (via
`decryptBase64Payload` with the same key) the base64 encoding of the 12-byte
nonce concatenated with the AES-GCM ciphertext+tag produced by encrypting
that plaintext under that key and nonce yields exactly the original
plaintext bytes.  The AES-GCM keystream and tag functions are universally
quantified, so this holds in particular for the AES instances used by
Web Crypto. -/
theorem decryptBase64Payload_roundtrip
    (ks : List Nat → List Nat → Nat → List Nat)
    (mac : List Nat → List Nat → List Nat → List Nat)
    (key nonce p : List Nat)
    (hks : (ks key nonce p.length).length = p.length)
    (hn12 : nonce.length = 12) (hnb : ∀ x ∈ nonce, x < 256)
    (hp : ∀ x ∈ p, x < 256) :
    decryptBase64Payload (gcmDecrypt ks mac)
      ⟨base64Encode (nonce ++ gcmEncrypt ks mac key nonce p)⟩ key = .ok p := by
  have hbytes : ∀ x ∈ nonce ++ gcmEncrypt ks mac key nonce p, x < 256 := by
    intro x hx
    rcases List.mem_append.1 hx with h | h
    · exact hnb x h
    · exact mem_gcmEncrypt_lt ks mac key nonce p x h
  have hdec : base64Decode (base64Encode (nonce ++ gcmEncrypt ks mac key nonce p))
      = some (nonce ++ gcmEncrypt ks mac key nonce p) :=
    base64Decode_base64Encode _ hbytes
  have hbt : base64ToBytes ⟨base64Encode (nonce ++ gcmEncrypt ks mac key nonce p)⟩
      = .ok (nonce ++ gcmEncrypt ks mac key nonce p) := by
    unfold base64ToBytes
    rw [show (⟨base64Encode (nonce ++ gcmEncrypt ks mac key nonce p)⟩ : String).data
        = base64Encode (nonce ++ gcmEncrypt ks mac key nonce p) from rfl, hdec]
  have hlen : (nonce ++ gcmEncrypt ks mac key nonce p).length = p.length + 28 := by
    simp only [List.length_append, hn12, length_gcmEncrypt ks mac key nonce p hks]
    omega
  simp only [decryptBase64Payload, hbt]
  rw [if_neg (by omega)]
  rw [List.take_left' hn12, List.drop_left' hn12]
  exact gcmDecrypt_gcmEncrypt ks mac key nonce p hks hp

/-- Witness for C1 at a concrete keystream, tag function, key, nonce and
plaintext. -/
theorem decryptBase64Payload_roundtrip_witness :
    decryptBase64Payload
      (gcmDecrypt (fun _ _ n => List.replicate n 170) (fun _ _ _ => List.replicate 16 1))
      ⟨base64Encode ([0, 1, 2, 3, 4, 5, 6, 7, 8, 9, 10, 11] ++
        gcmEncrypt (fun _ _ n => List.replicate n 170) (fun _ _ _ => List.replicate 16 1)
          [9] [0, 1, 2, 3, 4, 5, 6, 7, 8, 9, 10, 11] [72, 105])⟩ [9]
      = .ok [72, 105] :=
  decryptBase64Payload_roundtrip (fun _ _ n => List.replicate n 170)
    (fun _ _ _ => List.replicate 16 1) [9] [0, 1, 2, 3, 4, 5, 6, 7, 8, 9, 10, 11]
    [72, 105] (by decide) (by decide) (by decide) (by decide)

/-- C2: for every base64 payload whose decoded byte length is at most 12,
`decryptBase64Payload` fails with the "Payload too short" error.  The
AES-GCM decryption primitive `dec` is universally quantified and the result
does not depend on it, so AES-GCM decryption is never invoked. -/
theorem decryptBase64Payload_short {κ : Type}
    (dec : κ → List Nat → List Nat → Except String (List Nat))
    (b64 : String) (key : κ) (bytes : List Nat)
    (hdec : base64Decode b64.data = some bytes) (hlen : bytes.length ≤ 12) :
    decryptBase64Payload dec b64 key = .error "Payload too short" := by
  rw [decryptBase64Payload]
  unfold base64ToBytes
  rw [hdec]
  simp [hlen]

/-- Witness for C2: a 12-byte all-zero payload, with a decryption primitive
that would succeed if it were ever called. -/
theorem decryptBase64Payload_short_witness :
    decryptBase64Payload (fun (_ : Unit) _ _ => Except.ok ([27] : List Nat))
      "AAAAAAAAAAAAAAAA" () = .error "Payload too short" :=
  decryptBase64Payload_short (fun (_ : Unit) _ _ => Except.ok ([27] : List Nat))
    "AAAAAAAAAAAAAAAA" () (List.replicate 12 0) (by decide) (by decide)

/-! ### SHA-256 (model of `crypto.subtle.digest("SHA-256", ·)`, FIPS 180-4)

Words are `Nat` values reduced modulo `2 ^ 32`; the message is a byte list. -/

def M32 : Nat := 4294967296

def rotr (n x : Nat) : Nat := ((x >>> n) ||| (x <<< (32 - n))) % M32

def shaCh (x y z : Nat) : Nat := (x &&& y) ^^^ ((x ^^^ 4294967295) &&& z)

def shaMaj (x y z : Nat) : Nat := (x &&& y) ^^^ (x &&& z) ^^^ (y &&& z)

def bigSigma0 (x : Nat) : Nat := rotr 2 x ^^^ rotr 13 x ^^^ rotr 22 x

def bigSigma1 (x : Nat) : Nat := rotr 6 x ^^^ rotr 11 x ^^^ rotr 25 x

def smallSigma0 (x : Nat) : Nat := rotr 7 x ^^^ rotr 18 x ^^^ (x >>> 3)

def smallSigma1 (x : Nat) : Nat := rotr 17 x ^^^ rotr 19 x ^^^ (x >>> 10)

def shaK : List Nat :=
  [1116352408, 1899447441, 3049323471, 3921009573, 961987163, 1508970993,
   2453635748, 2870763221, 3624381080, 310598401, 607225278, 1426881987,
   1925078388, 2162078206, 2614888103, 3248222580, 3835390401, 4022224774,
   264347078, 604807628, 770255983, 1249150122, 1555081692, 1996064986,
   2554220882, 2821834349, 2952996808, 3210313671, 3336571891, 3584528711,
   113926993, 338241895, 666307205, 773529912, 1294757372, 1396182291,
   1695183700, 1986661051, 2177026350, 2456956037, 2730485921, 2820302411,
   3259730800, 3345764771, 3516065817, 3600352804, 4094571909, 275423344,
   430227734, 506948616, 659060556, 883997877, 958139571, 1322822218,
   1537002063, 1747873779, 1955562222, 2024104815, 2227730452, 2361852424,
   2428436474, 2756734187, 3204031479, 3329325298]

structure Sha256State where
  a : Nat
  b : Nat
  c : Nat
  d : Nat
  e : Nat
  f : Nat
  g : Nat
  h : Nat

def initHash : Sha256State :=
  ⟨1779033703, 3144134277, 1013904242, 2773480762,
   1359893119, 2600822924, 528734635, 1541459225⟩

/-- Big-endian 8-byte encoding of the bit length. -/
def lenBytes (n : Nat) : List Nat :=
  [n / 72057594037927936 % 256, n / 281474976710656 % 256,
   n / 1099511627776 % 256, n / 4294967296 % 256, n / 16777216 % 256,
   n / 65536 % 256, n / 256 % 256, n % 256]

/-- Big-endian 4-byte encoding of a 32-bit word. -/
def wordBytes (w : Nat) : List Nat :=
  [w / 16777216 % 256, w / 65536 % 256, w / 256 % 256, w % 256]

/-- Append the `0x80` byte, zero padding, then the 64-bit bit length. -/
def padMessage (msg : List Nat) : List Nat :=
  msg ++ 128 :: List.replicate ((120 - (msg.length + 1) % 64) % 64) 0
      ++ lenBytes (8 * msg.length)

def chunksAux : Nat → List Nat → List (List Nat)
  | _, [] => []
  | 0, _ => []
  | fuel + 1, l => l.take 64 :: chunksAux fuel (l.drop 64)

/-- Split into 64-byte blocks; the fuel `l.length` suffices because each
step consumes at least one element of the non-empty remainder. -/
def chunks64 (l : List Nat) : List (List Nat) := chunksAux l.length l

/-- Big-endian 32-bit words from bytes. -/
def toWords : List Nat → List Nat
  | a :: b :: c :: d :: rest => (((a * 256 + b) * 256 + c) * 256 + d) :: toWords rest
  | _ => []

/-- Message-schedule extension from 16 to 64 words. -/
def extendWords (ws : List Nat) : List Nat :=
  (List.range 48).foldl (fun w _ =>
    w ++ [(smallSigma1 (w.getD (w.length - 2) 0) + w.getD (w.length - 7) 0 +
           smallSigma0 (w.getD (w.length - 15) 0) + w.getD (w.length - 16) 0) % M32]) ws

def compressBlock (hv : Sha256State) (block : List Nat) : Sha256State :=
  let ws := extendWords (toWords block)
  let st := (shaK.zip ws).foldl (fun s kw =>
    let t1 := (s.h + bigSigma1 s.e + shaCh s.e s.f s.g + kw.1 + kw.2) % M32
    let t2 := (bigSigma0 s.a + shaMaj s.a s.b s.c) % M32
    ⟨(t1 + t2) % M32, s.a, s.b, s.c, (s.d + t1) % M32, s.e, s.f, s.g⟩) hv
  ⟨(hv.a + st.a) % M32, (hv.b + st.b) % M32, (hv.c + st.c) % M32,
   (hv.d + st.d) % M32, (hv.e + st.e) % M32, (hv.f + st.f) % M32,
   (hv.g + st.g) % M32, (hv.h + st.h) % M32⟩

def sha256 (msg : List Nat) : List Nat :=
  let hs := (chunks64 (padMessage msg)).foldl compressBlock initHash
  wordBytes hs.a ++ wordBytes hs.b ++ wordBytes hs.c ++ wordBytes hs.d ++
  wordBytes hs.e ++ wordBytes hs.f ++ wordBytes hs.g ++ wordBytes hs.h

theorem length_sha256 (msg : List Nat) : (sha256 msg).length = 32 := by
  simp [sha256, wordBytes]

/-- FIPS 180-4 known-answer test: SHA-256 of the empty message. -/
theorem sha256_empty :
    sha256 [] = [227, 176, 196, 66, 152, 252, 28, 20, 154, 251, 244, 200,
      153, 111, 185, 36, 39, 174, 65, 228, 100, 155, 147, 76, 164, 149, 153,
      27, 120, 82, 184, 85] := by
  decide

/-! ### `deriveKeyFromSignature` (App.tsx lines 168-174) -/

/-- UTF-8 bytes of a string, as `new TextEncoder().encode(·)` produces
(mirrors core `String.toUTF8`). -/
def utf8Encode (s : String) : List Nat :=
  s.data.flatMap (fun c => (String.utf8EncodeChar c).map (fun b => b.toNat))

/-- FIPS 180-4 known-answer test: SHA-256 of the UTF-8 bytes of "abc". -/
theorem sha256_abc :
    sha256 (utf8Encode "abc") = [186, 120, 22, 191, 143, 1, 207, 234, 65,
      65, 64, 222, 93, 174, 34, 35, 176, 3, 97, 163, 150, 23, 122, 156, 180,
      16, 255, 97, 242, 0, 21, 173] := by
  decide

/-- Model of a Web Crypto `CryptoKey` as produced by `importKey("raw", ...)`:
the raw key material together with the algorithm, extractability and usage
restrictions passed at import. -/
structure CryptoKey where
  algorithm : String
  extractable : Bool
  usages : List String
  raw : List Nat

/-- `deriveKeyFromSignature`: SHA-256 over the UTF-8 bytes of the signature
string, imported as a non-extractable AES-GCM key usable only for
decryption. -/
def deriveKeyFromSignature (signature : String) : CryptoKey :=
  let sigBytes := utf8Encode signature
  let hash := sha256 sigBytes
  { algorithm := "AES-GCM", extractable := false, usages := ["decrypt"], raw := hash }

/-- C4: for every signature string, `deriveKeyFromSignature` computes
SHA-256 over the UTF-8 bytes of the signature string itself (a 32-byte
digest) and imports it as an AES-GCM key whose only permitted usage is
decryption. -/
theorem deriveKeyFromSignature_spec (signature : String) :
    (deriveKeyFromSignature signature).raw = sha256 (utf8Encode signature) ∧
    (deriveKeyFromSignature signature).raw.length = 32 ∧
    (deriveKeyFromSignature signature).algorithm = "AES-GCM" ∧
    (deriveKeyFromSignature signature).extractable = false ∧
    (deriveKeyFromSignature signature).usages = ["decrypt"] :=
  ⟨rfl, length_sha256 (utf8Encode signature), rfl, rfl, rfl⟩

/-! ### `normalizeCid` (App.tsx lines 53-56) -/

/-- `normalizeCid`: empty strings pass through (JS falsy guard); a leading
`"0x"` is stripped once.  JS `cid.startsWith("0x")` is rendered as equality
of the first two characters. -/
def normalizeCid (cid : String) : String :=
  if cid = "" then cid
  else if cid.take 2 = "0x" then cid.drop 2
  else cid

/-- C6: `normalizeCid` strips exactly one leading `"0x"` prefix when present
and returns any string without that prefix unchanged. -/
theorem normalizeCid_spec :
    (∀ s : String, normalizeCid ("0x" ++ s) = s) ∧
    (∀ s : String, (∀ t : String, s ≠ "0x" ++ t) → normalizeCid s = s) := by
  constructor
  · intro s
    have hdata : ("0x" ++ s).data = '0' :: 'x' :: s.data := by simp
    have hne : ("0x" ++ s) ≠ "" := by
      intro h
      have h2 := congrArg String.data h
      rw [hdata] at h2
      simp at h2
    have htake : ("0x" ++ s).take 2 = "0x" := by
      rw [String.take_eq, hdata]
      rfl
    have hdrop : ("0x" ++ s).drop 2 = s := by
      rw [String.drop_eq, hdata]
      rfl
    rw [normalizeCid, if_neg hne, if_pos htake, hdrop]
  · intro s hs
    by_cases h0 : s = ""
    · rw [normalizeCid, if_pos h0]
    · have htake : s.take 2 ≠ "0x" := by
        intro h
        apply hs (s.drop 2)
        apply String.ext
        have hd := congrArg String.data h
        rw [String.data_take] at hd
        rw [String.data_append, String.data_drop]
        rw [show ("0x" : String).data = ['0', 'x'] from rfl] at hd ⊢
        rw [← hd, List.take_append_drop]
      rw [normalizeCid, if_neg h0, if_neg htake]

/-- Witness for C6: a prefixed and an unprefixed concrete identifier. -/
theorem normalizeCid_spec_witness :
    normalizeCid "0xda25" = "da25" ∧ normalizeCid "bafy" = "bafy" := by
  constructor
  · exact normalizeCid_spec.1 "da25"
  · refine normalizeCid_spec.2 "bafy" ?_
    intro t h
    have h2 := congrArg String.data h
    simp at h2

/-! ### `addLog` (App.tsx lines 65-67) -/

/-- `addLog`: prepend the timestamped message and keep the first 200
entries (`[entry, ...l].slice(0, 200)`); the timestamp string is a
parameter. -/
def addLog (timeStr msg : String) (logs : List String) : List String :=
  ((timeStr ++ " — " ++ msg) :: logs).take 200

/-- C9: `addLog` keeps the log at length at most 200, puts the newest entry
first, preserves the order of the surviving entries (the result is an
initial segment of `newest :: logs`), leaves short logs intact and evicts
exactly the entries beyond 200 on full logs. -/
theorem addLog_bounded (t m : String) (logs : List String) :
    (addLog t m logs).length ≤ 200 ∧
    (addLog t m logs).head? = some (t ++ " — " ++ m) ∧
    (∃ rest, (t ++ " — " ++ m) :: logs = addLog t m logs ++ rest) ∧
    (logs.length ≤ 199 → addLog t m logs = (t ++ " — " ++ m) :: logs) ∧
    (200 ≤ logs.length → addLog t m logs = (t ++ " — " ++ m) :: logs.take 199) := by
  refine ⟨?_, ?_, ?_, ?_, ?_⟩
  · simp only [addLog, List.length_take]
    omega
  · rw [addLog, List.take_succ_cons, List.head?_cons]
  · exact ⟨((t ++ " — " ++ m) :: logs).drop 200, (List.take_append_drop _ _).symm⟩
  · intro h
    exact List.take_of_length_le (by simp; omega)
  · intro _
    rw [addLog, List.take_succ_cons]

/-- Witness for C9 at a full 200-entry log: the oldest entry is evicted. -/
theorem addLog_bounded_witness :
    addLog "12:00:00" "hello" (List.replicate 200 "old")
      = ("12:00:00" ++ " — " ++ "hello") :: List.replicate 199 "old" := by
  have hlen : (List.replicate 200 "old").length = 200 := List.length_replicate 200 "old"
  have h := (addLog_bounded "12:00:00" "hello" (List.replicate 200 "old")).2.2.2.2
    (by rw [hlen])
  rw [h, List.take_replicate]
  norm_num

/-! ### The IPFS proxy route (server.js lines 10-21) -/

/-- Upstream response as the handler consumes it: the `content-type` header
(absent modelled as `none`) and the buffered body.  A throw anywhere in the
`try` block (fetch or buffering) is the `Except.error` case. -/
structure UpstreamResp where
  contentType : Option String
  body : List Nat

inductive ResBody where
  | buffer (b : List Nat)
  | text (s : String)
deriving DecidableEq

structure ProxyResp where
  status : Nat
  contentType : Option String
  body : ResBody
deriving DecidableEq

/-- JS `x || d` for a string-or-null `x`: `null` and `""` are falsy. -/
def jsOrDefault : Option String → String → String
  | none, d => d
  | some s, d => if s = "" then d else s

/-- The `GET /ipfs/:cid` handler: fetch `GATEWAY + cid`, relay content-type
(defaulted via `||`) and body; on any throw reply 500 "Proxy error". -/
def ipfsRoute (gateway : String)
    (fetchUpstream : String → Except String UpstreamResp) (cid : String) :
    ProxyResp :=
  match fetchUpstream (gateway ++ cid) with
  | .ok r =>
    { status := 200,
      contentType := some (jsOrDefault r.contentType "application/octet-stream"),
      body := .buffer r.body }
  | .error _ =>
    { status := 500, contentType := none, body := .text "Proxy error" }

/-- C7: whenever the upstream fetch fails — whatever the error — the proxy
responds with HTTP 500 and the plain-text body "Proxy error". -/
theorem ipfsRoute_error (gateway cid e : String)
    (fetchUpstream : String → Except String UpstreamResp)
    (hf : fetchUpstream (gateway ++ cid) = .error e) :
    ipfsRoute gateway fetchUpstream cid
      = { status := 500, contentType := none, body := .text "Proxy error" } := by
  rw [ipfsRoute, hf]

/-- Witness for C7 at a concrete failing upstream. -/
theorem ipfsRoute_error_witness :
    ipfsRoute "https://ipfs.io/ipfs/" (fun _ => .error "ECONNREFUSED") "bafy"
      = { status := 500, contentType := none, body := .text "Proxy error" } :=
  ipfsRoute_error "https://ipfs.io/ipfs/" "bafy" "ECONNREFUSED" _ rfl

/-- C8 counterexample: an upstream that supplies the `content-type` header
with the empty string is not echoed — the `||` default kicks in, so the
claim "carries the upstream content-type header whenever the upstream
provides one" fails at this input. -/
theorem ipfsRoute_contentType_cex :
    (ipfsRoute "g/" (fun _ => .ok { contentType := some "", body := [1] }) "cid").contentType
        = some "application/octet-stream" ∧
      some "application/octet-stream" ≠ (some "" : Option String) := by
  constructor
  · rfl
  · decide

/-- C8 (amended): on upstream success the proxy replies 200 with the
upstream body; it carries the upstream `content-type` header when that
header is present and non-empty, and `application/octet-stream` when the
header is absent or empty. -/
theorem ipfsRoute_contentType (gateway cid : String)
    (fetchUpstream : String → Except String UpstreamResp) (r : UpstreamResp)
    (hf : fetchUpstream (gateway ++ cid) = .ok r) :
    (ipfsRoute gateway fetchUpstream cid).status = 200 ∧
    (ipfsRoute gateway fetchUpstream cid).body = .buffer r.body ∧
    (∀ ct, r.contentType = some ct → ct ≠ "" →
      (ipfsRoute gateway fetchUpstream cid).contentType = some ct) ∧
    (r.contentType = none ∨ r.contentType = some "" →
      (ipfsRoute gateway fetchUpstream cid).contentType
        = some "application/octet-stream") := by
  rw [ipfsRoute, hf]
  refine ⟨rfl, rfl, ?_, ?_⟩
  · intro ct hct hne
    simp [jsOrDefault, hct, hne]
  · rintro (hct | hct) <;> simp [jsOrDefault, hct]

/-- Witness for C8 (amended) at a concrete upstream with a present,
non-empty content-type. -/
theorem ipfsRoute_contentType_witness :
    (ipfsRoute "g/" (fun _ => .ok { contentType := some "text/plain", body := [7] }) "cid").contentType
      = some "text/plain" :=
  (ipfsRoute_contentType "g/" "cid" _ _ rfl).2.2.1 "text/plain" rfl (by decide)

/-! ### `fetchCidBase64` (App.tsx lines 107-153)

The three environment-dependent capabilities are parameters: the injected
global client (`window.OGStorage.download`, absent or not a function ↦
`none`), the dynamic SDK import (`import('@0glabs/0g-ts-sdk')`, rejection ↦
`.error`, a loaded module without a function-valued `download` export ↦
`download = none`) and the HTTP client (`fetch` + `res.text()`). -/

structure SdkModule where
  download : Option (String → Except String String)

structure HttpResp where
  ok : Bool
  status : Nat
  text : String

/-- The inner `try` around the dynamic import: yields a payload only when
the import resolves, exposes a `download` function and that call succeeds;
an import failure or a throwing `download` is swallowed by the inner
`catch` and falls through (`none`). -/
def fetchViaSdk (sdkImport : Except String SdkModule) (cid : String) :
    Option String :=
  match sdkImport with
  | .error _ => none
  | .ok m =>
    match m.download with
    | some download =>
      match download cid with
      | .ok b64 => some b64
      | .error _ => none
    | none => none

def gatewayUrl (storageGateway cid : String) : String :=
  if storageGateway.endsWith "/" then storageGateway ++ normalizeCid cid
  else storageGateway ++ "/" ++ normalizeCid cid

/-- The gateway fallback: empty gateway throws; a non-ok HTTP status throws
`Gateway fetch failed: <status>`; otherwise the trimmed body is the
payload. -/
def fetchViaGateway (storageGateway : String)
    (httpGet : String → Except String HttpResp) (cid : String) :
    Except String String :=
  if storageGateway = "" then
    .error "No storage gateway configured and 0g SDK not available."
  else
    match httpGet (gatewayUrl storageGateway cid) with
    | .error e => .error e
    | .ok res =>
      if res.ok = false then .error ("Gateway fetch failed: " ++ toString res.status)
      else .ok res.text.trim

/-- `fetchCidBase64`: a present global client is called directly — its
result, error included, is the result (a throw there hits only the outer
`catch`, which logs and rethrows).  Only when it is absent are the SDK and
then the gateway consulted. -/
def fetchCidBase64 (globalDownload : Option (String → Except String String))
    (sdkImport : Except String SdkModule) (storageGateway : String)
    (httpGet : String → Except String HttpResp) (cid : String) :
    Except String String :=
  match globalDownload with
  | some download => download cid
  | none =>
    match fetchViaSdk sdkImport cid with
    | some b64 => .ok b64
    | none => fetchViaGateway storageGateway httpGet cid

/-- C5 counterexample: a present global client whose call fails aborts the
whole fetch even though the SDK strategy (and the gateway) would succeed, so
"falling back to the next strategy in order until one succeeds or all fail"
is false at this input: the claim predicts `.ok "fallback data"`, the code
yields the global client's error. -/
theorem fetchCidBase64_no_fallback_cex :
    fetchCidBase64 (some fun _ => .error "global client failure")
        (.ok ⟨some fun _ => .ok "fallback data"⟩) "https://gw/"
        (fun _ => .ok ⟨true, 200, "fallback data"⟩) "cid"
      = .error "global client failure" ∧
      (Except.error "global client failure" : Except String String)
        ≠ .ok "fallback data" := by
  exact ⟨rfl, fun h => Except.noConfusion h⟩

/-- C5 (amended): the strategies are consulted in priority order — global
client, SDK download, gateway GET — but a present global client is used
exclusively (its failure propagates without fallback), while an unavailable
or failing SDK strategy falls through to the gateway, whose non-success
HTTP status makes the fetch fail. -/
theorem fetchCidBase64_order
    (globalDownload : Option (String → Except String String))
    (sdkImport : Except String SdkModule) (storageGateway : String)
    (httpGet : String → Except String HttpResp) (cid : String) :
    (∀ dl, globalDownload = some dl →
      fetchCidBase64 globalDownload sdkImport storageGateway httpGet cid
        = dl cid) ∧
    (∀ b64, globalDownload = none → fetchViaSdk sdkImport cid = some b64 →
      fetchCidBase64 globalDownload sdkImport storageGateway httpGet cid
        = .ok b64) ∧
    (globalDownload = none → fetchViaSdk sdkImport cid = none →
      fetchCidBase64 globalDownload sdkImport storageGateway httpGet cid
        = fetchViaGateway storageGateway httpGet cid) ∧
    (globalDownload = none → fetchViaSdk sdkImport cid = none →
      storageGateway ≠ "" → ∀ r, httpGet (gatewayUrl storageGateway cid) = .ok r →
      r.ok = false →
      fetchCidBase64 globalDownload sdkImport storageGateway httpGet cid
        = .error ("Gateway fetch failed: " ++ toString r.status)) ∧
    (globalDownload = none → fetchViaSdk sdkImport cid = none →
      storageGateway ≠ "" → ∀ r, httpGet (gatewayUrl storageGateway cid) = .ok r →
      r.ok = true →
      fetchCidBase64 globalDownload sdkImport storageGateway httpGet cid
        = .ok r.text.trim) := by
  refine ⟨?_, ?_, ?_, ?_, ?_⟩
  · intro dl hdl
    rw [hdl, fetchCidBase64]
  · intro b64 hg hsdk
    rw [hg, fetchCidBase64, hsdk]
  · intro hg hsdk
    rw [hg, fetchCidBase64, hsdk]
  · intro hg hsdk hgw r hr hok
    rw [hg, fetchCidBase64, hsdk, fetchViaGateway, if_neg hgw, hr]
    simp [hok]
  · intro hg hsdk hgw r hr hok
    rw [hg, fetchCidBase64, hsdk, fetchViaGateway, if_neg hgw, hr]
    simp [hok]

/-- Witness for C5 (amended): a present, succeeding global client. -/
theorem fetchCidBase64_order_witness :
    fetchCidBase64 (some fun _ => .ok "ZGF0YQ==") (.error "no module") ""
      (fun _ => .error "network unavailable") "0xabc" = .ok "ZGF0YQ==" :=
  (fetchCidBase64_order (some fun _ => .ok "ZGF0YQ==") (.error "no module") ""
    (fun _ => .error "network unavailable") "0xabc").1 _ rfl

/-- C10: with no global storage client, an unusable SDK (import failed or no
download export) and an empty configured gateway, `fetchCidBase64` throws
the configuration error.  The HTTP client is universally quantified and
never consulted — the result is the same for every `httpGet`. -/
theorem fetchCidBase64_no_gateway (sdkImport : Except String SdkModule)
    (httpGet : String → Except String HttpResp) (cid : String)
    (hsdk : (∃ e, sdkImport = .error e) ∨
      (∃ m, sdkImport = .ok m ∧ m.download = none)) :
    fetchCidBase64 none sdkImport "" httpGet cid
      = .error "No storage gateway configured and 0g SDK not available." := by
  have hvia : fetchViaSdk sdkImport cid = none := by
    rcases hsdk with ⟨e, he⟩ | ⟨m, hm, hdl⟩
    · rw [he, fetchViaSdk]
    · rw [hm, fetchViaSdk, hdl]
  rw [fetchCidBase64, hvia, fetchViaGateway, if_pos rfl]

/-- Witness for C10: failed dynamic import, empty gateway, an HTTP client
that would answer if it were ever called. -/
theorem fetchCidBase64_no_gateway_witness :
    fetchCidBase64 none (.error "Cannot find module") ""
      (fun _ => .ok ⟨true, 200, "ZGF0YQ=="⟩) "0xabc"
      = .error "No storage gateway configured and 0g SDK not available." :=
  fetchCidBase64_no_gateway (.error "Cannot find module") _ "0xabc"
    (Or.inl ⟨"Cannot find module", rfl⟩)

/-! ### `handleDownload` (App.tsx lines 187-230)

The handler is modelled as the ordered trace of its observable actions: log
lines, the signature request, the payload fetch and the file save.  The
wallet signer, the environment behind `fetchCidBase64` and the AES-GCM
decryption primitive are oracles; `Date.now()` is the `now` parameter. -/

/-- JS `String.prototype.toLowerCase()` on the ASCII addresses in play:
per-character lower-casing (computable rendering of `String.map
Char.toLower`). -/
def jsToLower (s : String) : String := ⟨s.data.map Char.toLower⟩

def OWNER_ADDRESS : String := jsToLower "0x6F4D829488686afd8D9B68AE56986C312784C0e6"

structure Token where
  tokenId : String
  storageCid : String
  fileName : String

inductive Step where
  | logMsg (s : String)
  | signStep (challenge : String)
  | fetchStep (cid : String)
  | saveStep (fileName : String)
deriving DecidableEq

def Step.isLog : Step → Bool
  | .logMsg _ => true
  | _ => false

/-- `handleDownload`: guard clauses (wallet connected — JS-falsy check on
the signer and the address —, address equals owner after case folding,
non-empty storage CID), then sign the timestamped challenge, derive the key,
fetch the payload, decrypt and save; any throw lands in the `catch`, which
logs `Download/decrypt failed`. -/
def handleDownload (signer : Option Unit) (connectedAddress : Option String)
    (token : Token) (now : Nat)
    (signMessage : String → Except String String)
    (fetchCid : String → Except String String)
    (dec : CryptoKey → List Nat → List Nat → Except String (List Nat)) :
    List Step :=
  if signer = none ∨ connectedAddress = none ∨ connectedAddress = some "" then
    [.logMsg "Connect wallet first"]
  else if jsToLower (connectedAddress.getD "") ≠ OWNER_ADDRESS then
    [.logMsg "Connected address does not match owner — download not allowed"]
  else if token.storageCid = "" then
    [.logMsg "No storage CID for this token. Fill it in code or metadata."]
  else
    Step.logMsg "Signing challenge..." ::
    Step.signStep ("0g-download:" ++ token.tokenId ++ ":" ++ toString now) ::
    match signMessage ("0g-download:" ++ token.tokenId ++ ":" ++ toString now) with
    | .error e => [.logMsg ("Download/decrypt failed: " ++ e)]
    | .ok signature =>
      Step.logMsg "Signature obtained. Deriving key..." ::
      Step.logMsg "Fetching encrypted payload (base64)..." ::
      Step.fetchStep token.storageCid ::
      match fetchCid token.storageCid with
      | .error e => [.logMsg ("Download/decrypt failed: " ++ e)]
      | .ok b64 =>
        Step.logMsg "Decrypting..." ::
        match decryptBase64Payload dec b64 (deriveKeyFromSignature signature) with
        | .error e => [.logMsg ("Download/decrypt failed: " ++ e)]
        | .ok _ => [.saveStep token.fileName,
                    .logMsg ("Download complete: " ++ token.fileName)]

/-- C3: a connected address whose case-folded value differs from the owner
address makes `handleDownload` return after logging only (no signing, no
fetching); a missing signer aborts before signing with the connect-first
log; an empty storage CID aborts before any fetch. -/
theorem handleDownload_guards (signer : Option Unit)
    (connectedAddress : Option String) (token : Token) (now : Nat)
    (signMessage : String → Except String String)
    (fetchCid : String → Except String String)
    (dec : CryptoKey → List Nat → List Nat → Except String (List Nat)) :
    (∀ a, connectedAddress = some a → jsToLower a ≠ OWNER_ADDRESS →
      ∀ st ∈ handleDownload signer connectedAddress token now signMessage fetchCid dec,
        st.isLog = true) ∧
    (signer = none →
      handleDownload signer connectedAddress token now signMessage fetchCid dec
        = [Step.logMsg "Connect wallet first"]) ∧
    (token.storageCid = "" → ∀ c,
      Step.fetchStep c ∉
        handleDownload signer connectedAddress token now signMessage fetchCid dec) := by
  refine ⟨?_, ?_, ?_⟩
  · intro a ha hne st hst
    rw [handleDownload] at hst
    by_cases h1 : signer = none ∨ connectedAddress = none ∨ connectedAddress = some ""
    · rw [if_pos h1] at hst
      simp only [List.mem_singleton] at hst
      rw [hst]
      rfl
    · rw [if_neg h1] at hst
      rw [if_pos (by rw [ha]; exact hne)] at hst
      simp only [List.mem_singleton] at hst
      rw [hst]
      rfl
  · intro h
    rw [handleDownload, if_pos (Or.inl h)]
  · intro hcid c hmem
    rw [handleDownload] at hmem
    by_cases h1 : signer = none ∨ connectedAddress = none ∨ connectedAddress = some ""
    · rw [if_pos h1] at hmem
      simp at hmem
    · rw [if_neg h1] at hmem
      by_cases h2 : jsToLower (connectedAddress.getD "") ≠ OWNER_ADDRESS
      · rw [if_pos h2] at hmem
        simp at hmem
      · rw [if_neg h2, if_pos hcid] at hmem
        simp at hmem

/-- Witness for C3 at a concrete non-owner address and live oracles. -/
theorem handleDownload_guards_witness :
    (handleDownload (some ()) (some "0xDEAD") ⟨"0x01", "0xda25", "f.txt"⟩ 0
        (fun _ => .ok "sig") (fun _ => .ok "AAAA") (fun _ _ _ => .ok [])).all
      Step.isLog = true :=
  List.all_eq_true.2
    ((handleDownload_guards (some ()) (some "0xDEAD") ⟨"0x01", "0xda25", "f.txt"⟩ 0
      (fun _ => .ok "sig") (fun _ => .ok "AAAA") (fun _ _ _ => .ok [])).1
      "0xDEAD" rfl (by decide))

end ZeroGravity
